import Mathlib

/-!
Shallow embedding of `main.go` of the process exporter.

The program keeps three Prometheus gauge vectors (`cpuUsage`, `memUsage`,
`pidUsage`), each labeled by process name, plus a `lastUpdate` timestamp map.
Every 5 seconds `updateMetrics` walks the configured names in order:
it resolves each name to a pid with `getPID` (0 meaning not found), zeroes
the three gauges on a miss, otherwise checks the staleness map and, when due,
samples CPU percent, memory percent and pid, aborting the whole pass with an
early `return` on any read error.  `printMetrics` dumps the gathered series,
keeping only metrics that carry at least one label whose first label name
does not start with `"go_"`.

Gauge values (Go float64 / float32) are modelled as `Rat`; time as `Nat`
seconds, so `time.Since(t) >= 5s` becomes `5 ≤ now - t` (Nat subtraction
truncates negative durations to 0, which like Go's negative duration fails
the `≥ 5s` test).  Pids (Go int, from int32) are modelled as `Int`.
-/

/-- One of the string-keyed maps backing a gauge vector or the timestamp map. -/
def StrMap (α : Type) : Type := String → Option α

/-- Point update of a map: `WithLabelValues(name).Set(v)` / `lastUpdate[name] = t`. -/
def StrMap.set (m : StrMap α) (k : String) (v : α) : StrMap α :=
  fun k' => if k' = k then some v else m k'

theorem StrMap.set_same (m : StrMap α) (k : String) (v : α) :
    m.set k v k = some v := by
  simp [StrMap.set]

theorem StrMap.set_other (m : StrMap α) (k k' : String) (v : α) (h : k' ≠ k) :
    m.set k v k' = m k' := by
  simp [StrMap.set, h]

/-- The shared mutable state of the program: the three gauge vectors
(`cpuUsage`, `memUsage`, `pidUsage`) and the `lastUpdate` timestamp map. -/
structure MetricStore where
  cpu : StrMap Rat
  mem : StrMap Rat
  pid : StrMap Rat
  lastUpdate : StrMap Nat

/-- Outcome of the per-pid sampling sequence in the loop body of
`updateMetrics`: `process.NewProcess` may fail, then `CPUPercent` may fail,
then `MemoryPercent` may fail (after the CPU gauge was already written),
or everything succeeds. -/
inductive SampleOutcome where
  | newProcessErr
  | cpuErr
  | memErr (cpuPercent : Rat)
  | ok (cpuPercent memPercent : Rat)
deriving DecidableEq, Repr

/-- The OS as seen during one tick: the result of `process.Processes()`
(enumeration may fail) as a `(pid, name)` list, and the behaviour of the
`NewProcess`/`CPUPercent`/`MemoryPercent` sequence for each pid. -/
structure Env where
  procList : Except Unit (List (Int × String))
  sample : Int → SampleOutcome

/-- Function `getPID` of `main.go`: on enumeration failure log and return 0;
otherwise return the pid of the first process whose name equals
`processName`, or 0 when none matches. -/
def getPID (env : Env) (processName : String) : Int :=
  match env.procList with
  | .error _ => 0
  | .ok processes =>
    match processes.find? (fun p => p.2 = processName) with
    | some p => p.1
    | none => 0

/-- The staleness test of `updateMetrics`:
`!ok || time.Since(lastUpdateTime) >= time.Second*5`. -/
def dueAt (s : MetricStore) (processName : String) (now : Nat) : Bool :=
  match s.lastUpdate processName with
  | none => true
  | some t => 5 ≤ now - t

/-- One iteration of the loop body of `updateMetrics` for a single
`processName`.  Returns the new store and `true` when the loop continues
(`continue` or normal fall-through), `false` for the early `return` that
aborts the whole pass on a sample-read error.  On `MemoryPercent` failure
the CPU gauge has already been written, matching the statement order of the
source. -/
def updateOne (env : Env) (now : Nat) (s : MetricStore) (processName : String) :
    MetricStore × Bool :=
  let pid := getPID env processName
  if pid = 0 then
    ({ s with
        cpu := s.cpu.set processName 0
        mem := s.mem.set processName 0
        pid := s.pid.set processName 0 }, true)
  else
    if dueAt s processName now then
      match env.sample pid with
      | .newProcessErr => (s, false)
      | .cpuErr => (s, false)
      | .memErr cpuPercent =>
        ({ s with cpu := s.cpu.set processName cpuPercent }, false)
      | .ok cpuPercent memPercent =>
        ({ s with
            cpu := s.cpu.set processName cpuPercent
            mem := s.mem.set processName memPercent
            pid := s.pid.set processName (pid : Rat)
            lastUpdate := s.lastUpdate.set processName now }, true)
    else
      (s, true)

/-- The `for` loop of `updateMetrics` over the configured names, threading
the store and honouring the abort flag.  The `Bool` of the result is `true`
iff the pass ran to completion (no early `return`). -/
def runNames (env : Env) (now : Nat) (s : MetricStore) :
    List String → MetricStore × Bool
  | [] => (s, true)
  | n :: rest =>
    match updateOne env now s n with
    | (s', true) => runNames env now s' rest
    | (s', false) => (s', false)

/-- Function `updateMetrics` of `main.go`: one full pass over the configured names
(the surrounding mutex is the serialization point; the pass itself is the
critical section). -/
def updateMetrics (env : Env) (now : Nat) (processNames : List String)
    (s : MetricStore) : MetricStore :=
  (runNames env now s processNames).1

/-- A sequence of scheduler ticks, each with its own view of the OS and its
own clock reading. -/
def runTicks (processNames : List String) :
    List (Env × Nat) → MetricStore → MetricStore
  | [], s => s
  | (env, now) :: rest, s =>
    runTicks processNames rest (updateMetrics env now processNames s)

/-- One gathered metric, as `printMetrics` sees it: the family name
(`mf` loop), the label pairs `m.Label` in order, and the gauge value. -/
structure Series where
  familyName : String
  labels : List (String × String)
  value : Rat
deriving DecidableEq, Repr

/-- One printed console line of `printMetrics`: either a
`Metric: ... - Value: ...` line for a series, or the separator line of
equals signs. -/
inductive Line where
  | metricLine (m : Series)
  | separator
deriving DecidableEq, Repr

/-- Go's `strings.HasPrefix s p`, stated structurally on the character
list so that it evaluates by reduction. -/
def hasPrefixChars (s p : String) : Bool :=
  p.data.isPrefixOf s.data

/-- The filter condition in `printMetrics`:
`len(m.Label) > 0 && !strings.HasPrefix(*m.Label[0].Name, "go_")` —
note this inspects the first label NAME, not the metric family name. -/
def printFilter (m : Series) : Bool :=
  match m.labels with
  | [] => false
  | (labelName, _) :: _ => ! hasPrefixChars labelName "go_"

/-- Function `printMetrics` of `main.go` as a function from the gathered snapshot to
the console lines it emits: kept series in order, then one separator.
It only reads the registry — the four maps of the `MetricStore` are not
touched, so it plays no role in the store's evolution. -/
def printMetrics : List Series → List Line
  | [] => [.separator]
  | m :: rest =>
    if printFilter m then .metricLine m :: printMetrics rest
    else printMetrics rest

/-- Modelled from the spec (§4.5), for comparison with `printMetrics`:
print every registered series except those in the reserved runtime
namespace, identified by the `"go_"` prefix of the series NAME, then one
separator line. -/
def printMetricsSpec (snapshot : List Series) : List Line :=
  (snapshot.filter (fun m => ! hasPrefixChars m.familyName "go_")).map
    .metricLine ++ [.separator]

/-- Holds (`true`) exactly when the `NewProcess`/`CPUPercent`/`MemoryPercent`
sequence of the loop body hits an error, i.e. when `updateMetrics` takes
one of its early returns. -/
def SampleOutcome.isFailure : SampleOutcome → Bool
  | .ok _ _ => false
  | _ => true

/-- The reachable-store invariant behind the Metric Store's shape: a name
with a recorded success timestamp has all three gauge entries.  The empty
initial store satisfies it vacuously. -/
def entryInv (s : MetricStore) : Prop :=
  ∀ m, (s.lastUpdate m).isSome →
    (s.cpu m).isSome ∧ (s.mem m).isSome ∧ (s.pid m).isSome

/-- The registry right after startup: no gauge entries, no timestamps. -/
def initialStore : MetricStore :=
  { cpu := fun _ => none
    mem := fun _ => none
    pid := fun _ => none
    lastUpdate := fun _ => none }

/-- A store in which name `"a"` was sampled successfully at time 0
(cpu 1, mem 2, pid 7) and name `"b"` holds last-known values 5 with no
timestamp. -/
def sPrev : MetricStore :=
  { cpu := fun k => if k = "a" then some 1 else if k = "b" then some 5 else none
    mem := fun k => if k = "a" then some 2 else if k = "b" then some 5 else none
    pid := fun k => if k = "a" then some 7 else if k = "b" then some 5 else none
    lastUpdate := fun k => if k = "a" then some 0 else none }

/-- A tick in which `"a"` resolves to pid 7 and the memory read fails
after a CPU reading of 42 was already written. -/
def envMemFail : Env :=
  { procList := .ok [(7, "a")], sample := fun _ => .memErr 42 }

/-- A tick in which `"a"` resolves to pid 7 and the CPU read fails. -/
def envCpuFail : Env :=
  { procList := .ok [(7, "a")], sample := fun _ => .cpuErr }

/-- A tick in which `"a"` resolves to pid 7 but the process vanishes
before `process.NewProcess` succeeds. -/
def envVanish : Env :=
  { procList := .ok [(7, "a")], sample := fun _ => .newProcessErr }

/-- A tick in which `"a"` resolves to pid 7 and sampling succeeds. -/
def envOk : Env :=
  { procList := .ok [(7, "a")], sample := fun _ => .ok 50 25 }

/-- A tick on which enumerating the OS process list fails. -/
def envEnumFail : Env :=
  { procList := .error (), sample := fun _ => .ok 50 25 }

/-! ### Framing and splitting lemmas for the update pass -/

theorem updateOne_frame_cpu (env : Env) (now : Nat) (s : MetricStore)
    (n m : String) (h : m ≠ n) :
    ((updateOne env now s n).1).cpu m = s.cpu m := by
  by_cases h0 : getPID env n = 0
  · simp [updateOne, h0, StrMap.set, h]
  · by_cases hd : dueAt s n now
    · cases hs : env.sample (getPID env n) <;>
        simp [updateOne, h0, hd, hs, StrMap.set, h]
    · simp [updateOne, h0, hd]

theorem updateOne_frame_mem (env : Env) (now : Nat) (s : MetricStore)
    (n m : String) (h : m ≠ n) :
    ((updateOne env now s n).1).mem m = s.mem m := by
  by_cases h0 : getPID env n = 0
  · simp [updateOne, h0, StrMap.set, h]
  · by_cases hd : dueAt s n now
    · cases hs : env.sample (getPID env n) <;>
        simp [updateOne, h0, hd, hs, StrMap.set, h]
    · simp [updateOne, h0, hd]

theorem updateOne_frame_pid (env : Env) (now : Nat) (s : MetricStore)
    (n m : String) (h : m ≠ n) :
    ((updateOne env now s n).1).pid m = s.pid m := by
  by_cases h0 : getPID env n = 0
  · simp [updateOne, h0, StrMap.set, h]
  · by_cases hd : dueAt s n now
    · cases hs : env.sample (getPID env n) <;>
        simp [updateOne, h0, hd, hs, StrMap.set, h]
    · simp [updateOne, h0, hd]

theorem updateOne_frame_lastUpdate (env : Env) (now : Nat) (s : MetricStore)
    (n m : String) (h : m ≠ n) :
    ((updateOne env now s n).1).lastUpdate m = s.lastUpdate m := by
  by_cases h0 : getPID env n = 0
  · simp [updateOne, h0]
  · by_cases hd : dueAt s n now
    · cases hs : env.sample (getPID env n) <;>
        simp [updateOne, h0, hd, hs, StrMap.set, h]
    · simp [updateOne, h0, hd]

/-- Iterations (`updateOne`) never write the timestamp map of any name other than on
a successful sample of that very name; in particular it never removes one. -/
theorem runNames_frame (env : Env) (now : Nat) (s : MetricStore)
    (ns : List String) (m : String) (h : m ∉ ns) :
    ((runNames env now s ns).1).cpu m = s.cpu m ∧
    ((runNames env now s ns).1).mem m = s.mem m ∧
    ((runNames env now s ns).1).pid m = s.pid m ∧
    ((runNames env now s ns).1).lastUpdate m = s.lastUpdate m := by
  induction ns generalizing s with
  | nil => exact ⟨rfl, rfl, rfl, rfl⟩
  | cons n rest ih =>
    have hmn : m ≠ n := fun he => h (he ▸ List.mem_cons_self n rest)
    have hrest : m ∉ rest := fun hr => h (List.mem_cons_of_mem n hr)
    unfold runNames
    rcases hc : updateOne env now s n with ⟨s', c⟩
    have e1 : s'.cpu m = s.cpu m := by
      have := updateOne_frame_cpu env now s n m hmn; rwa [hc] at this
    have e2 : s'.mem m = s.mem m := by
      have := updateOne_frame_mem env now s n m hmn; rwa [hc] at this
    have e3 : s'.pid m = s.pid m := by
      have := updateOne_frame_pid env now s n m hmn; rwa [hc] at this
    have e4 : s'.lastUpdate m = s.lastUpdate m := by
      have := updateOne_frame_lastUpdate env now s n m hmn; rwa [hc] at this
    cases c with
    | true =>
      simp only
      obtain ⟨a, b, cc, d⟩ := ih s' hrest
      exact ⟨a.trans e1, b.trans e2, cc.trans e3, d.trans e4⟩
    | false => exact ⟨e1, e2, e3, e4⟩

/-- Unfolding the pass on a name whose iteration continues. -/
theorem runNames_cons_true {env : Env} {now : Nat} {s s' : MetricStore}
    {n : String} {rest : List String}
    (hc : updateOne env now s n = (s', true)) :
    runNames env now s (n :: rest) = runNames env now s' rest := by
  conv_lhs => unfold runNames
  rw [hc]

/-- Unfolding the pass on a name whose iteration hits the early `return`. -/
theorem runNames_cons_false {env : Env} {now : Nat} {s s' : MetricStore}
    {n : String} {rest : List String}
    (hc : updateOne env now s n = (s', false)) :
    runNames env now s (n :: rest) = (s', false) := by
  conv_lhs => unfold runNames
  rw [hc]

/-- Case shape of the loop body: unresolvable name (`pid == 0`) zeroes the
three gauges and continues; the timestamp map is untouched. -/
theorem updateOne_notFound {env : Env} {now : Nat} {s : MetricStore}
    {n : String} (h0 : getPID env n = 0) :
    updateOne env now s n =
      ({ s with
          cpu := s.cpu.set n 0
          mem := s.mem.set n 0
          pid := s.pid.set n 0 }, true) := by
  simp [updateOne, h0]

/-- Case shape: resolved but not yet stale — the iteration is a no-op. -/
theorem updateOne_skip {env : Env} {now : Nat} {s : MetricStore}
    {n : String} (h0 : getPID env n ≠ 0) (hd : dueAt s n now = false) :
    updateOne env now s n = (s, true) := by
  simp [updateOne, h0, hd]

/-- Case shape: `process.NewProcess` fails — store untouched, early return. -/
theorem updateOne_newProcessErr {env : Env} {now : Nat} {s : MetricStore}
    {n : String} (h0 : getPID env n ≠ 0) (hd : dueAt s n now = true)
    (hs : env.sample (getPID env n) = .newProcessErr) :
    updateOne env now s n = (s, false) := by
  simp [updateOne, h0, hd, hs]

/-- Case shape: `CPUPercent` fails — store untouched, early return. -/
theorem updateOne_cpuErr {env : Env} {now : Nat} {s : MetricStore}
    {n : String} (h0 : getPID env n ≠ 0) (hd : dueAt s n now = true)
    (hs : env.sample (getPID env n) = .cpuErr) :
    updateOne env now s n = (s, false) := by
  simp [updateOne, h0, hd, hs]

/-- Case shape: `MemoryPercent` fails — but the CPU gauge was already
written with the fresh reading before the early return. -/
theorem updateOne_memErr {env : Env} {now : Nat} {s : MetricStore}
    {n : String} {c : Rat} (h0 : getPID env n ≠ 0) (hd : dueAt s n now = true)
    (hs : env.sample (getPID env n) = .memErr c) :
    updateOne env now s n = ({ s with cpu := s.cpu.set n c }, false) := by
  simp [updateOne, h0, hd, hs]

/-- Case shape: successful sample — all three gauges and the timestamp are
written, and the loop continues. -/
theorem updateOne_ok {env : Env} {now : Nat} {s : MetricStore}
    {n : String} {c m : Rat} (h0 : getPID env n ≠ 0) (hd : dueAt s n now = true)
    (hs : env.sample (getPID env n) = .ok c m) :
    updateOne env now s n =
      ({ s with
          cpu := s.cpu.set n c
          mem := s.mem.set n m
          pid := s.pid.set n ((getPID env n : Int) : Rat)
          lastUpdate := s.lastUpdate.set n now }, true) := by
  simp [updateOne, h0, hd, hs]

/-- Staleness only looks at the name's own timestamp entry. -/
theorem dueAt_congr {s s' : MetricStore} {n : String} (now : Nat)
    (h : s'.lastUpdate n = s.lastUpdate n) :
    dueAt s' n now = dueAt s n now := by
  unfold dueAt
  rw [h]

/-- The effect of one iteration on its own name's entries depends only on
those entries (and the environment), not on the rest of the store. -/
theorem updateOne_congr (env : Env) (now : Nat) (s s' : MetricStore)
    (n : String)
    (h1 : s'.cpu n = s.cpu n) (h2 : s'.mem n = s.mem n)
    (h3 : s'.pid n = s.pid n) (h4 : s'.lastUpdate n = s.lastUpdate n) :
    ((updateOne env now s' n).1).cpu n = ((updateOne env now s n).1).cpu n ∧
    ((updateOne env now s' n).1).mem n = ((updateOne env now s n).1).mem n ∧
    ((updateOne env now s' n).1).pid n = ((updateOne env now s n).1).pid n ∧
    ((updateOne env now s' n).1).lastUpdate n =
      ((updateOne env now s n).1).lastUpdate n ∧
    (updateOne env now s' n).2 = (updateOne env now s n).2 := by
  by_cases h0 : getPID env n = 0
  · rw [updateOne_notFound h0, updateOne_notFound h0]
    simp [StrMap.set_same, h4]
  · have hdd := dueAt_congr now h4
    by_cases hd : dueAt s n now
    · rw [hd] at hdd
      cases hs : env.sample (getPID env n) with
      | newProcessErr =>
        rw [updateOne_newProcessErr h0 hd hs, updateOne_newProcessErr h0 hdd hs]
        exact ⟨h1, h2, h3, h4, rfl⟩
      | cpuErr =>
        rw [updateOne_cpuErr h0 hd hs, updateOne_cpuErr h0 hdd hs]
        exact ⟨h1, h2, h3, h4, rfl⟩
      | memErr c =>
        rw [updateOne_memErr h0 hd hs, updateOne_memErr h0 hdd hs]
        simp [StrMap.set_same, h2, h3, h4]
      | ok c m =>
        rw [updateOne_ok h0 hd hs, updateOne_ok h0 hdd hs]
        simp [StrMap.set_same]
    · have hd' : dueAt s n now = false := by simp [hd]
      rw [hd'] at hdd
      rw [updateOne_skip h0 hd', updateOne_skip h0 hdd]
      exact ⟨h1, h2, h3, h4, rfl⟩

/-- One iteration never deletes a gauge entry (for any key): `Set` on a
gauge vector only creates or overwrites. -/
theorem updateOne_preserves_isSome (env : Env) (now : Nat) (s : MetricStore)
    (n m : String) :
    ((s.cpu m).isSome → (((updateOne env now s n).1).cpu m).isSome) ∧
    ((s.mem m).isSome → (((updateOne env now s n).1).mem m).isSome) ∧
    ((s.pid m).isSome → (((updateOne env now s n).1).pid m).isSome) := by
  by_cases h0 : getPID env n = 0
  · rw [updateOne_notFound h0]
    refine ⟨?_, ?_, ?_⟩ <;> · intro hh; by_cases hmn : m = n <;>
      simp [StrMap.set, hmn, hh]
  · by_cases hd : dueAt s n now
    · cases hs : env.sample (getPID env n) with
      | newProcessErr => rw [updateOne_newProcessErr h0 hd hs]; exact ⟨id, id, id⟩
      | cpuErr => rw [updateOne_cpuErr h0 hd hs]; exact ⟨id, id, id⟩
      | memErr c =>
        rw [updateOne_memErr h0 hd hs]
        refine ⟨?_, id, id⟩
        intro hh; by_cases hmn : m = n <;> simp [StrMap.set, hmn, hh]
      | ok c mm =>
        rw [updateOne_ok h0 hd hs]
        refine ⟨?_, ?_, ?_⟩ <;> · intro hh; by_cases hmn : m = n <;>
          simp [StrMap.set, hmn, hh]
    · have hd' : dueAt s n now = false := by simp [hd]
      rw [updateOne_skip h0 hd']
      exact ⟨id, id, id⟩

/-- A whole pass never deletes a gauge entry. -/
theorem runNames_preserves_isSome (env : Env) (now : Nat) (m : String) :
    ∀ (ns : List String) (s : MetricStore),
    ((s.cpu m).isSome → (((runNames env now s ns).1).cpu m).isSome) ∧
    ((s.mem m).isSome → (((runNames env now s ns).1).mem m).isSome) ∧
    ((s.pid m).isSome → (((runNames env now s ns).1).pid m).isSome) := by
  intro ns
  induction ns with
  | nil => exact fun s => ⟨id, id, id⟩
  | cons n rest ih =>
    intro s
    rcases hc : updateOne env now s n with ⟨s', c⟩
    have hstep := updateOne_preserves_isSome env now s n m
    rw [hc] at hstep
    cases c with
    | true =>
      rw [runNames_cons_true hc]
      obtain ⟨a, b, d⟩ := ih s'
      exact ⟨fun h => a (hstep.1 h), fun h => b (hstep.2.1 h),
        fun h => d (hstep.2.2 h)⟩
    | false =>
      rw [runNames_cons_false hc]
      exact hstep

/-- Any number of ticks never deletes a gauge entry. -/
theorem runTicks_preserves_isSome (names : List String) (m : String) :
    ∀ (ticks : List (Env × Nat)) (s : MetricStore),
    ((s.cpu m).isSome → (((runTicks names ticks s)).cpu m).isSome) ∧
    ((s.mem m).isSome → (((runTicks names ticks s)).mem m).isSome) ∧
    ((s.pid m).isSome → (((runTicks names ticks s)).pid m).isSome) := by
  intro ticks
  induction ticks with
  | nil => exact fun s => ⟨id, id, id⟩
  | cons tk rest ih =>
    intro s
    rcases tk with ⟨env, now⟩
    have hstep := runNames_preserves_isSome env now m names s
    obtain ⟨a, b, d⟩ := ih (updateMetrics env now names s)
    exact ⟨fun h => a (hstep.1 h), fun h => b (hstep.2.1 h),
      fun h => d (hstep.2.2 h)⟩

/-- For a name the environment cannot resolve, a pass drives (and keeps) its
three gauges at the explicit not-found placeholder `0` once they are there,
and never touches its staleness timestamp. -/
theorem runNames_zero_inv (env : Env) (now : Nat) (n : String)
    (h0 : getPID env n = 0) :
    ∀ (ns : List String) (s : MetricStore),
    ((s.cpu n = some 0 ∧ s.mem n = some 0 ∧ s.pid n = some 0) →
      ((runNames env now s ns).1).cpu n = some 0 ∧
      ((runNames env now s ns).1).mem n = some 0 ∧
      ((runNames env now s ns).1).pid n = some 0) ∧
    ((runNames env now s ns).1).lastUpdate n = s.lastUpdate n := by
  intro ns
  induction ns with
  | nil => exact fun s => ⟨id, rfl⟩
  | cons m rest ih =>
    intro s
    by_cases hmn : m = n
    · subst hmn
      rw [runNames_cons_true (updateOne_notFound h0)]
      obtain ⟨hz, hl⟩ := ih _
      constructor
      · exact fun _ => hz ⟨StrMap.set_same _ _ _, StrMap.set_same _ _ _,
          StrMap.set_same _ _ _⟩
      · exact hl
    · have hnm : n ≠ m := fun he => hmn he.symm
      rcases hc : updateOne env now s m with ⟨s', c⟩
      have e1 : s'.cpu n = s.cpu n := by
        have := updateOne_frame_cpu env now s m n hnm; rwa [hc] at this
      have e2 : s'.mem n = s.mem n := by
        have := updateOne_frame_mem env now s m n hnm; rwa [hc] at this
      have e3 : s'.pid n = s.pid n := by
        have := updateOne_frame_pid env now s m n hnm; rwa [hc] at this
      have e4 : s'.lastUpdate n = s.lastUpdate n := by
        have := updateOne_frame_lastUpdate env now s m n hnm; rwa [hc] at this
      cases c with
      | true =>
        rw [runNames_cons_true hc]
        obtain ⟨hz, hl⟩ := ih s'
        refine ⟨fun ⟨a, b, d⟩ => hz ⟨e1.trans a, e2.trans b, e3.trans d⟩, ?_⟩
        exact hl.trans e4
      | false =>
        rw [runNames_cons_false hc]
        exact ⟨fun ⟨a, b, d⟩ => ⟨e1.trans a, e2.trans b, e3.trans d⟩, e4⟩

/-- A name whose last successful sample is fresher than the interval is
completely untouched by a pass: all three gauges and the timestamp keep
their values, whatever happens to the other names. -/
theorem runNames_fresh_inv (env : Env) (now : Nat) (n : String) (t : Nat)
    (hpid : getPID env n ≠ 0) (hfresh : now - t < 5) :
    ∀ (ns : List String) (s : MetricStore), s.lastUpdate n = some t →
    ((runNames env now s ns).1).cpu n = s.cpu n ∧
    ((runNames env now s ns).1).mem n = s.mem n ∧
    ((runNames env now s ns).1).pid n = s.pid n ∧
    ((runNames env now s ns).1).lastUpdate n = some t := by
  intro ns
  induction ns with
  | nil => exact fun s ht => ⟨rfl, rfl, rfl, ht⟩
  | cons m rest ih =>
    intro s ht
    by_cases hmn : m = n
    · subst hmn
      have hnotdue : dueAt s m now = false := by
        have h5 : ¬ (5 ≤ now - t) := by omega
        simp [dueAt, ht, h5]
      rw [runNames_cons_true (updateOne_skip hpid hnotdue)]
      exact ih s ht
    · have hnm : n ≠ m := fun he => hmn he.symm
      rcases hc : updateOne env now s m with ⟨s', c⟩
      have e1 : s'.cpu n = s.cpu n := by
        have := updateOne_frame_cpu env now s m n hnm; rwa [hc] at this
      have e2 : s'.mem n = s.mem n := by
        have := updateOne_frame_mem env now s m n hnm; rwa [hc] at this
      have e3 : s'.pid n = s.pid n := by
        have := updateOne_frame_pid env now s m n hnm; rwa [hc] at this
      have e4 : s'.lastUpdate n = s.lastUpdate n := by
        have := updateOne_frame_lastUpdate env now s m n hnm; rwa [hc] at this
      cases c with
      | true =>
        rw [runNames_cons_true hc]
        obtain ⟨a, b, d, e⟩ := ih s' (e4.trans ht)
        exact ⟨a.trans e1, b.trans e2, d.trans e3, e⟩
      | false =>
        rw [runNames_cons_false hc]
        exact ⟨e1, e2, e3, e4.trans ht⟩

/-- One iteration preserves the store-shape invariant. -/
theorem updateOne_entryInv (env : Env) (now : Nat) (s : MetricStore)
    (n : String) (h : entryInv s) : entryInv ((updateOne env now s n).1) := by
  intro m
  by_cases hmn : m = n
  · rw [hmn]
    by_cases h0 : getPID env n = 0
    · rw [updateOne_notFound h0]
      intro _
      simp [StrMap.set_same]
    · by_cases hd : dueAt s n now
      · cases hs : env.sample (getPID env n) with
        | newProcessErr => rw [updateOne_newProcessErr h0 hd hs]; exact h n
        | cpuErr => rw [updateOne_cpuErr h0 hd hs]; exact h n
        | memErr c =>
          rw [updateOne_memErr h0 hd hs]
          intro hl
          obtain ⟨_, b, d⟩ := h n hl
          exact ⟨by simp [StrMap.set_same], b, d⟩
        | ok c mm =>
          rw [updateOne_ok h0 hd hs]
          intro _
          simp [StrMap.set_same]
      · have hd' : dueAt s n now = false := by simp [hd]
        rw [updateOne_skip h0 hd']
        exact h n
  · have e1 := updateOne_frame_cpu env now s n m hmn
    have e2 := updateOne_frame_mem env now s n m hmn
    have e3 := updateOne_frame_pid env now s n m hmn
    have e4 := updateOne_frame_lastUpdate env now s n m hmn
    rw [e1, e2, e3, e4]
    exact h m

/-- A completed pass gives every processed name all three gauge entries
(provided the store satisfies the shape invariant, as the initial empty
store does). -/
theorem runNames_complete_isSome (env : Env) (now : Nat) :
    ∀ (ns : List String) (s : MetricStore), entryInv s →
    (runNames env now s ns).2 = true →
    ∀ n ∈ ns,
      (((runNames env now s ns).1).cpu n).isSome ∧
      (((runNames env now s ns).1).mem n).isSome ∧
      (((runNames env now s ns).1).pid n).isSome := by
  intro ns
  induction ns with
  | nil => intro s _ _ n hn; cases hn
  | cons m rest ih =>
    intro s hinv hcomp n hn
    rcases hc : updateOne env now s m with ⟨s', c⟩
    cases c with
    | false =>
      rw [runNames_cons_false hc] at hcomp
      cases hcomp
    | true =>
      rw [runNames_cons_true hc] at hcomp ⊢
      rcases List.mem_cons.1 hn with he | hrest
      · subst he
        have hsome : (s'.cpu n).isSome ∧ (s'.mem n).isSome ∧
            (s'.pid n).isSome := by
          by_cases h0 : getPID env n = 0
          · rw [updateOne_notFound h0] at hc
            have hs2 : _ = s' := congrArg Prod.fst hc
            rw [← hs2]
            simp [StrMap.set_same]
          · by_cases hd : dueAt s n now
            · cases hs : env.sample (getPID env n) with
              | newProcessErr =>
                rw [updateOne_newProcessErr h0 hd hs] at hc
                have h2 := congrArg Prod.snd hc
                simp at h2
              | cpuErr =>
                rw [updateOne_cpuErr h0 hd hs] at hc
                have h2 := congrArg Prod.snd hc
                simp at h2
              | memErr cc =>
                rw [updateOne_memErr h0 hd hs] at hc
                have h2 := congrArg Prod.snd hc
                simp at h2
              | ok cc mm =>
                rw [updateOne_ok h0 hd hs] at hc
                have hs2 : _ = s' := congrArg Prod.fst hc
                rw [← hs2]
                simp [StrMap.set_same]
            · have hd' : dueAt s n now = false := by simp [hd]
              rw [updateOne_skip h0 hd'] at hc
              have hs2 : _ = s' := congrArg Prod.fst hc
              rw [← hs2]
              have hl : (s.lastUpdate n).isSome := by
                unfold dueAt at hd'
                rcases hlu : s.lastUpdate n with - | t
                · rw [hlu] at hd'; simp at hd'
                · simp
              exact hinv n hl
        obtain ⟨p1, p2, p3⟩ := runNames_preserves_isSome env now n rest s'
        exact ⟨p1 hsome.1, p2 hsome.2.1, p3 hsome.2.2⟩
      · exact ih s' (by
          have := updateOne_entryInv env now s m hinv
          rwa [hc] at this) hcomp n hrest

/-- Unfolding the pass on an aborting name, with the tail list given
explicitly (convenient when it cannot be inferred). -/
theorem runNames_cons_false_at {env : Env} {now : Nat} {s s' : MetricStore}
    {n : String} (rest : List String)
    (hc : updateOne env now s n = (s', false)) :
    runNames env now s (n :: rest) = (s', false) :=
  runNames_cons_false hc

/-- Splitting a pass at a list concatenation, when the prefix completed:
the suffix runs from the prefix's final store. -/
theorem runNames_append_completes (env : Env) (now : Nat) (s : MetricStore)
    (pre post : List String) (h : (runNames env now s pre).2 = true) :
    runNames env now s (pre ++ post) =
      runNames env now (runNames env now s pre).1 post := by
  induction pre generalizing s with
  | nil => rfl
  | cons n rest ih =>
    rcases hc : updateOne env now s n with ⟨s', c⟩
    cases c with
    | true =>
      rw [List.cons_append, runNames_cons_true hc, runNames_cons_true hc]
      rw [runNames_cons_true hc] at h
      exact ih s' h
    | false =>
      rw [runNames_cons_false hc] at h
      simp at h

/-- Splitting a pass at a list concatenation, when the prefix aborted:
the suffix never runs. -/
theorem runNames_append_aborts (env : Env) (now : Nat) (s : MetricStore)
    (pre post : List String) (h : (runNames env now s pre).2 = false) :
    runNames env now s (pre ++ post) = runNames env now s pre := by
  induction pre generalizing s with
  | nil => simp [runNames] at h
  | cons n rest ih =>
    rcases hc : updateOne env now s n with ⟨s', c⟩
    cases c with
    | true =>
      rw [List.cons_append, runNames_cons_true hc, runNames_cons_true hc]
      rw [runNames_cons_true hc] at h
      exact ih s' h
    | false =>
      rw [List.cons_append, runNames_cons_false hc, runNames_cons_false hc]

/-- A one-name pass is just its single iteration, whether it aborts or not. -/
theorem runNames_singleton (env : Env) (now : Nat) (s : MetricStore)
    (n : String) :
    (runNames env now s [n]).1 = (updateOne env now s n).1 := by
  rcases hc : updateOne env now s n with ⟨s', c⟩
  cases c with
  | true => rw [runNames_cons_true hc]; rfl
  | false => rw [runNames_cons_false hc]

/-- When resolution yields `notFound` for every name (as on enumeration
failure), a pass zeroes every processed name, never aborts, and leaves the
whole timestamp map untouched. -/
theorem runNames_allNotFound (env : Env) (now : Nat)
    (hg : ∀ n, getPID env n = 0) :
    ∀ (ns : List String) (s : MetricStore),
    (∀ n ∈ ns,
      ((runNames env now s ns).1).cpu n = some 0 ∧
      ((runNames env now s ns).1).mem n = some 0 ∧
      ((runNames env now s ns).1).pid n = some 0) ∧
    (∀ m, ((runNames env now s ns).1).lastUpdate m = s.lastUpdate m) ∧
    (runNames env now s ns).2 = true := by
  intro ns
  induction ns with
  | nil => exact fun s => ⟨fun n hn => absurd hn (List.not_mem_nil n), fun m => rfl, rfl⟩
  | cons m rest ih =>
    intro s
    rw [runNames_cons_true (updateOne_notFound (hg m))]
    obtain ⟨hz, hl, hcomp⟩ := ih _
    refine ⟨?_, ?_, hcomp⟩
    · intro n hn
      rcases List.mem_cons.1 hn with he | hrest
      · subst he
        have := runNames_zero_inv env now n (hg n) rest
          { s with
            cpu := s.cpu.set n 0
            mem := s.mem.set n 0
            pid := s.pid.set n 0 }
        exact this.1 ⟨StrMap.set_same _ _ _, StrMap.set_same _ _ _,
          StrMap.set_same _ _ _⟩
      · exact hz n hrest
    · exact fun k => hl k

/-- A name the tick cannot resolve ends a completed pass at the explicit
zero placeholder. -/
theorem runNames_member_notFound_zero (env : Env) (now : Nat) (n : String)
    (h0 : getPID env n = 0) :
    ∀ (ns : List String) (s : MetricStore), n ∈ ns →
    (runNames env now s ns).2 = true →
    ((runNames env now s ns).1).cpu n = some 0 ∧
    ((runNames env now s ns).1).mem n = some 0 ∧
    ((runNames env now s ns).1).pid n = some 0 := by
  intro ns
  induction ns with
  | nil => intro s hn; cases hn
  | cons m rest ih =>
    intro s hn hcomp
    rcases hc : updateOne env now s m with ⟨s', c⟩
    cases c with
    | false =>
      rw [runNames_cons_false hc] at hcomp
      cases hcomp
    | true =>
      rw [runNames_cons_true hc] at hcomp ⊢
      rcases List.mem_cons.1 hn with he | hrest
      · subst he
        rw [updateOne_notFound h0] at hc
        have hs2 : _ = s' := congrArg Prod.fst hc
        rw [← hs2]
        exact (runNames_zero_inv env now n h0 rest _).1
          ⟨StrMap.set_same _ _ _, StrMap.set_same _ _ _, StrMap.set_same _ _ _⟩
      · exact ih s' hrest hcomp

/-! ### Claim theorems -/

/-- C5: for a name that resolves to a pid and whose recorded staleness
timestamp is less than the 5-second interval in the past, the update pass
performs no sampling: its cpu, mem and pid gauges and its staleness
timestamp are left unchanged. -/
theorem claim5_fresh_name_untouched (env : Env) (now : Nat) (s : MetricStore)
    (names : List String) (n : String) (t : Nat)
    (hpid : getPID env n ≠ 0)
    (ht : s.lastUpdate n = some t)
    (hfresh : now - t < 5) :
    (updateMetrics env now names s).cpu n = s.cpu n ∧
    (updateMetrics env now names s).mem n = s.mem n ∧
    (updateMetrics env now names s).pid n = s.pid n ∧
    (updateMetrics env now names s).lastUpdate n = s.lastUpdate n := by
  obtain ⟨a, b, d, e⟩ := runNames_fresh_inv env now n t hpid hfresh names s ht
  exact ⟨a, b, d, e.trans ht.symm⟩

/-- C5 witness: name `"a"` resolved (pid 7), last sampled at time 0,
re-examined at time 3 — nothing about it changes. -/
theorem claim5_witness :
    (updateMetrics envOk 3 ["a"] sPrev).cpu "a" = sPrev.cpu "a" ∧
    (updateMetrics envOk 3 ["a"] sPrev).mem "a" = sPrev.mem "a" ∧
    (updateMetrics envOk 3 ["a"] sPrev).pid "a" = sPrev.pid "a" ∧
    (updateMetrics envOk 3 ["a"] sPrev).lastUpdate "a" = sPrev.lastUpdate "a" :=
  claim5_fresh_name_untouched envOk 3 sPrev ["a"] "a" 0
    (by decide) (by decide) (by decide)

/-- C4: a name resolving to `notFound` has its cpu, mem and pid gauges set
to the explicit 0 placeholder, its staleness timestamp is not written, the
loop continues (no abort), and at any later instant past the interval the
name is due for sampling again immediately. -/
theorem claim4_notfound_zeroes (env : Env) (now now' : Nat) (s : MetricStore)
    (pre post : List String) (n : String)
    (hpre : (runNames env now s pre).2 = true)
    (h0 : getPID env n = 0)
    (helig : ∀ t, s.lastUpdate n = some t → t + 5 ≤ now') :
    (updateMetrics env now (pre ++ n :: post) s).cpu n = some 0 ∧
    (updateMetrics env now (pre ++ n :: post) s).mem n = some 0 ∧
    (updateMetrics env now (pre ++ n :: post) s).pid n = some 0 ∧
    (updateMetrics env now (pre ++ n :: post) s).lastUpdate n = s.lastUpdate n ∧
    (updateOne env now (runNames env now s pre).1 n).2 = true ∧
    dueAt (updateMetrics env now (pre ++ n :: post) s) n now' = true := by
  have hsplit : updateMetrics env now (pre ++ n :: post) s =
      (runNames env now
        ({ (runNames env now s pre).1 with
            cpu := ((runNames env now s pre).1).cpu.set n 0
            mem := ((runNames env now s pre).1).mem.set n 0
            pid := ((runNames env now s pre).1).pid.set n 0 }) post).1 := by
    unfold updateMetrics
    rw [runNames_append_completes env now s pre (n :: post) hpre,
      runNames_cons_true (updateOne_notFound h0)]
  obtain ⟨hz, hlz⟩ := runNames_zero_inv env now n h0 post
    ({ (runNames env now s pre).1 with
        cpu := ((runNames env now s pre).1).cpu.set n 0
        mem := ((runNames env now s pre).1).mem.set n 0
        pid := ((runNames env now s pre).1).pid.set n 0 })
  obtain ⟨z1, z2, z3⟩ := hz ⟨StrMap.set_same _ _ _, StrMap.set_same _ _ _,
    StrMap.set_same _ _ _⟩
  have hlast : (updateMetrics env now (pre ++ n :: post) s).lastUpdate n =
      s.lastUpdate n := by
    rw [hsplit, hlz]
    exact (runNames_zero_inv env now n h0 pre s).2
  refine ⟨by rw [hsplit]; exact z1, by rw [hsplit]; exact z2,
    by rw [hsplit]; exact z3, hlast, by rw [updateOne_notFound h0], ?_⟩
  unfold dueAt
  rw [hlast]
  rcases hlu : s.lastUpdate n with - | t
  · rfl
  · have := helig t hlu
    simp only [decide_eq_true_eq]
    omega

/-- C4 witness: name `"b"` does not resolve under `envOk`; after the pass
its gauges read 0, it has no timestamp, the pass continued, and it is due
at the next tick. -/
theorem claim4_witness :
    (updateMetrics envOk 10 ([] ++ "b" :: []) sPrev).cpu "b" = some 0 ∧
    (updateMetrics envOk 10 ([] ++ "b" :: []) sPrev).mem "b" = some 0 ∧
    (updateMetrics envOk 10 ([] ++ "b" :: []) sPrev).pid "b" = some 0 ∧
    (updateMetrics envOk 10 ([] ++ "b" :: []) sPrev).lastUpdate "b" =
      sPrev.lastUpdate "b" ∧
    (updateOne envOk 10 (runNames envOk 10 sPrev []).1 "b").2 = true ∧
    dueAt (updateMetrics envOk 10 ([] ++ "b" :: []) sPrev) "b" 15 = true :=
  claim4_notfound_zeroes envOk 10 15 sPrev [] [] "b" (by decide) (by decide)
    (by intro t ht; simp [sPrev] at ht)

/-- C7: when enumerating the OS process list fails, `getPID` answers 0 for
every name, so on that tick every configured name is zeroed, no staleness
timestamp anywhere is touched, and the pass completes normally
(the failure is non-fatal). -/
theorem claim7_enum_failure_zeroes_all (env : Env) (now : Nat)
    (s : MetricStore) (names : List String) (n m : String)
    (henum : env.procList = .error ())
    (hn : n ∈ names) :
    getPID env n = 0 ∧
    (updateMetrics env now names s).cpu n = some 0 ∧
    (updateMetrics env now names s).mem n = some 0 ∧
    (updateMetrics env now names s).pid n = some 0 ∧
    (updateMetrics env now names s).lastUpdate m = s.lastUpdate m ∧
    (runNames env now s names).2 = true := by
  have hg : ∀ k, getPID env k = 0 := by intro k; simp [getPID, henum]
  obtain ⟨hz, hl, hcomp⟩ := runNames_allNotFound env now hg names s
  obtain ⟨a, b, d⟩ := hz n hn
  exact ⟨hg n, a, b, d, hl m, hcomp⟩

/-- C7 witness: with enumeration failing, previously sampled `"a"` is
zeroed for the tick, its timestamp untouched, and the pass completes. -/
theorem claim7_witness :
    getPID envEnumFail "a" = 0 ∧
    (updateMetrics envEnumFail 10 ["a", "b"] sPrev).cpu "a" = some 0 ∧
    (updateMetrics envEnumFail 10 ["a", "b"] sPrev).mem "a" = some 0 ∧
    (updateMetrics envEnumFail 10 ["a", "b"] sPrev).pid "a" = some 0 ∧
    (updateMetrics envEnumFail 10 ["a", "b"] sPrev).lastUpdate "a" =
      sPrev.lastUpdate "a" ∧
    (runNames envEnumFail 10 sPrev ["a", "b"]).2 = true :=
  claim7_enum_failure_zeroes_all envEnumFail 10 sPrev ["a", "b"] "a" "a"
    rfl (by decide)

/-- C10: no operation removes a gauge entry — once a name's cpu, mem and
pid entries exist, they still exist after any further sequence of update
ticks; `printMetrics` and the exposition endpoint only read the registry
and change nothing. -/
theorem claim10_entries_never_removed (names : List String)
    (ticks : List (Env × Nat)) (s : MetricStore) (n : String)
    (hc : (s.cpu n).isSome = true) (hm : (s.mem n).isSome = true)
    (hp : (s.pid n).isSome = true) :
    ((runTicks names ticks s).cpu n).isSome = true ∧
    ((runTicks names ticks s).mem n).isSome = true ∧
    ((runTicks names ticks s).pid n).isSome = true := by
  obtain ⟨a, b, d⟩ := runTicks_preserves_isSome names n ticks s
  exact ⟨a hc, b hm, d hp⟩

/-- C10 witness: `"b"`'s entries survive three further ticks, including a
mid-read failure and an enumeration failure. -/
theorem claim10_witness :
    ((runTicks ["a"] [(envMemFail, 10), (envEnumFail, 20), (envOk, 30)]
      sPrev).cpu "b").isSome = true ∧
    ((runTicks ["a"] [(envMemFail, 10), (envEnumFail, 20), (envOk, 30)]
      sPrev).mem "b").isSome = true ∧
    ((runTicks ["a"] [(envMemFail, 10), (envEnumFail, 20), (envOk, 30)]
      sPrev).pid "b").isSome = true :=
  claim10_entries_never_removed ["a"]
    [(envMemFail, 10), (envEnumFail, 20), (envOk, 30)] sPrev "b"
    (by decide) (by decide) (by decide)

/-- C8: after a completed update pass every configured name has all three
gauge entries; a name whose resolution failed holds the explicit zero
placeholder; and the entries survive every later tick.  The store-shape
hypothesis `entryInv` holds for the initial empty store and is preserved
by every pass, so it covers exactly the reachable states. -/
theorem claim8_every_name_has_entries (env : Env) (now : Nat)
    (s : MetricStore) (names : List String) (n : String)
    (ticks : List (Env × Nat))
    (hinv : entryInv s)
    (hcomp : (runNames env now s names).2 = true)
    (hn : n ∈ names) :
    (((updateMetrics env now names s).cpu n).isSome = true ∧
     ((updateMetrics env now names s).mem n).isSome = true ∧
     ((updateMetrics env now names s).pid n).isSome = true) ∧
    (getPID env n ≠ 0 ∨
      ((updateMetrics env now names s).cpu n = some 0 ∧
       (updateMetrics env now names s).mem n = some 0 ∧
       (updateMetrics env now names s).pid n = some 0)) ∧
    (((runTicks names ticks (updateMetrics env now names s)).cpu n).isSome = true ∧
     ((runTicks names ticks (updateMetrics env now names s)).mem n).isSome = true ∧
     ((runTicks names ticks (updateMetrics env now names s)).pid n).isSome = true) := by
  obtain ⟨a, b, d⟩ := runNames_complete_isSome env now names s hinv hcomp n hn
  refine ⟨⟨a, b, d⟩, ?_, ?_⟩
  · by_cases h0 : getPID env n = 0
    · exact Or.inr (runNames_member_notFound_zero env now n h0 names s hn hcomp)
    · exact Or.inl h0
  · obtain ⟨p1, p2, p3⟩ :=
      runTicks_preserves_isSome names n ticks (updateMetrics env now names s)
    exact ⟨p1 a, p2 b, p3 d⟩

/-- C8 witness: first pass from the empty registry over `["a", "b"]` with
`"a"` resolvable and `"b"` not; both names get entries, `"b"` reads zero,
and the entries survive a later enumeration-failure tick. -/
theorem claim8_witness :
    (((updateMetrics envOk 10 ["a", "b"] initialStore).cpu "b").isSome = true ∧
     ((updateMetrics envOk 10 ["a", "b"] initialStore).mem "b").isSome = true ∧
     ((updateMetrics envOk 10 ["a", "b"] initialStore).pid "b").isSome = true) ∧
    (getPID envOk "b" ≠ 0 ∨
      ((updateMetrics envOk 10 ["a", "b"] initialStore).cpu "b" = some 0 ∧
       (updateMetrics envOk 10 ["a", "b"] initialStore).mem "b" = some 0 ∧
       (updateMetrics envOk 10 ["a", "b"] initialStore).pid "b" = some 0)) ∧
    (((runTicks ["a", "b"] [(envEnumFail, 20)]
        (updateMetrics envOk 10 ["a", "b"] initialStore)).cpu "b").isSome = true ∧
     ((runTicks ["a", "b"] [(envEnumFail, 20)]
        (updateMetrics envOk 10 ["a", "b"] initialStore)).mem "b").isSome = true ∧
     ((runTicks ["a", "b"] [(envEnumFail, 20)]
        (updateMetrics envOk 10 ["a", "b"] initialStore)).pid "b").isSome = true) :=
  claim8_every_name_has_entries envOk 10 initialStore ["a", "b"] "b"
    [(envEnumFail, 20)]
    (by intro m h; simp [initialStore] at h) (by decide) (by decide)

/-- C9 counterexample: the code's filter looks at the first label NAME, not
the series name.  An unlabeled series outside the `go_` namespace (like the
default registry's `process_open_fds`) is dropped by the code but kept by
the claim's name-prefix rule, and a labeled series named in the `go_`
namespace is kept by the code but dropped by the claim's rule. -/
theorem claim9_counterexample :
    printMetrics [{ familyName := "process_open_fds", labels := [], value := 3 }] ≠
      printMetricsSpec
        [{ familyName := "process_open_fds", labels := [], value := 3 }] ∧
    printMetrics
        [{ familyName := "go_info", labels := [("version", "go1")], value := 1 }] ≠
      printMetricsSpec
        [{ familyName := "go_info", labels := [("version", "go1")], value := 1 }] := by
  decide

/-- C9 (amended): on each Reporter tick the printed output consists of
exactly the gathered series that carry at least one label and whose FIRST
LABEL NAME does not start with `"go_"` (not a filter on the series name),
one line per kept series in snapshot order, followed by one separator
line. -/
theorem claim9_prints_label_filtered (snapshot : List Series) :
    printMetrics snapshot =
      (snapshot.filter (fun m =>
        !m.labels.isEmpty &&
          !(hasPrefixChars (m.labels.headD ("", "")).1 "go_"))).map
        Line.metricLine ++ [Line.separator] := by
  induction snapshot with
  | nil => rfl
  | cons m rest ih =>
    have hf : (!m.labels.isEmpty &&
        !(hasPrefixChars (m.labels.headD ("", "")).1 "go_")) = printFilter m := by
      rcases m with ⟨fn, ls, v⟩
      cases ls with
      | nil => rfl
      | cons p tl => rcases p with ⟨a, b⟩; rfl
    rw [List.filter_cons]
    simp only [hf]
    by_cases hm : printFilter m = true
    · rw [printMetrics, if_pos hm, if_pos hm, List.map_cons, ih]
      rfl
    · have hm' : printFilter m = false := by simp [hm]
      rw [printMetrics, if_neg hm, ih]
      rw [hm']
      simp

/-- C1 counterexample: name `"a"` was previously resolved and sampled
(timestamp recorded, cpu gauge at 1); on the next tick the memory read
fails — a sample-read failure — yet the stored cpu gauge has changed to the
freshly read 42, so the values are NOT all equal to those from before the
tick. -/
theorem claim1_counterexample :
    sPrev.lastUpdate "a" = some 0 ∧
    sPrev.cpu "a" = some 1 ∧
    (envMemFail.sample (getPID envMemFail "a")).isFailure = true ∧
    (updateMetrics envMemFail 10 ["a"] sPrev).cpu "a" ≠ sPrev.cpu "a" := by
  decide

/-- C1 (amended): when a due, resolved name's sample read fails, its mem
and pid gauges and its staleness timestamp keep their pre-tick values; the
cpu gauge also does when the failure is at process lookup or the CPU read,
but holds the freshly read CPU value when the failure is at the memory
read (the CPU gauge is written before the memory read in the loop body). -/
theorem claim1_last_known_good (env : Env) (now : Nat) (s : MetricStore)
    (pre post : List String) (n : String)
    (hpre : (runNames env now s pre).2 = true)
    (hnpre : n ∉ pre)
    (hpid : getPID env n ≠ 0)
    (hdue : dueAt s n now = true)
    (hfail : (env.sample (getPID env n)).isFailure = true) :
    (updateMetrics env now (pre ++ n :: post) s).mem n = s.mem n ∧
    (updateMetrics env now (pre ++ n :: post) s).pid n = s.pid n ∧
    (updateMetrics env now (pre ++ n :: post) s).lastUpdate n =
      s.lastUpdate n ∧
    (updateMetrics env now (pre ++ n :: post) s).cpu n =
      (match env.sample (getPID env n) with
        | .memErr c => some c
        | _ => s.cpu n) := by
  obtain ⟨f1, f2, f3, f4⟩ := runNames_frame env now s pre n hnpre
  have hdue1 : dueAt (runNames env now s pre).1 n now = true := by
    rw [dueAt_congr now f4]; exact hdue
  have hsplit : updateMetrics env now (pre ++ n :: post) s =
      (runNames env now (runNames env now s pre).1 (n :: post)).1 := by
    unfold updateMetrics
    rw [runNames_append_completes env now s pre (n :: post) hpre]
  cases hs : env.sample (getPID env n) with
  | newProcessErr =>
    have habort := runNames_cons_false_at post
      (updateOne_newProcessErr hpid hdue1 hs)
    rw [hsplit, habort]
    exact ⟨f2, f3, f4, f1⟩
  | cpuErr =>
    have habort := runNames_cons_false_at post
      (updateOne_cpuErr hpid hdue1 hs)
    rw [hsplit, habort]
    exact ⟨f2, f3, f4, f1⟩
  | memErr c =>
    have habort := runNames_cons_false_at post
      (updateOne_memErr hpid hdue1 hs)
    rw [hsplit, habort]
    exact ⟨f2, f3, f4, StrMap.set_same _ _ _⟩
  | ok c m2 =>
    rw [hs] at hfail
    simp [SampleOutcome.isFailure] at hfail

/-- C1 witness: `"a"` is resolved and due, the CPU read fails, and all
four of its stored values survive the tick unchanged. -/
theorem claim1_witness :
    (updateMetrics envCpuFail 10 ([] ++ "a" :: []) sPrev).mem "a" =
      sPrev.mem "a" ∧
    (updateMetrics envCpuFail 10 ([] ++ "a" :: []) sPrev).pid "a" =
      sPrev.pid "a" ∧
    (updateMetrics envCpuFail 10 ([] ++ "a" :: []) sPrev).lastUpdate "a" =
      sPrev.lastUpdate "a" ∧
    (updateMetrics envCpuFail 10 ([] ++ "a" :: []) sPrev).cpu "a" =
      (match envCpuFail.sample (getPID envCpuFail "a") with
        | .memErr c => some c
        | _ => sPrev.cpu "a") :=
  claim1_last_known_good envCpuFail 10 sPrev [] [] "a"
    (by decide) (by decide) (by decide) (by decide) (by decide)

/-- C2 counterexample: names `["a", "b"]` with `"a"` resolvable and `"b"`
not; `"a"`'s CPU read fails, the pass aborts, and `"b"` keeps its old value
5 instead of the correct not-found zero — the failure of one name DID
prevent the other's update. -/
theorem claim2_counterexample :
    getPID envCpuFail "b" = 0 ∧
    (envCpuFail.sample (getPID envCpuFail "a")).isFailure = true ∧
    (updateMetrics envCpuFail 10 ["a", "b"] sPrev).cpu "b" = some 5 ∧
    (updateMetrics envCpuFail 10 ["a", "b"] sPrev).cpu "b" ≠ some 0 := by
  decide

/-- C2 (amended): an unresolvable name never blocks the other name.
Listed first, it is zeroed and the pass continues, so the resolvable
name's four entries end exactly as in a pass over it alone; listed second,
it is zeroed in the same tick provided the resolvable name's iteration
does not abort.  (A sample-read failure of the earlier name, by contrast,
aborts the rest of the tick.) -/
theorem claim2_notfound_never_blocks (env : Env) (now : Nat)
    (s : MetricStore) (a b : String)
    (hab : a ≠ b)
    (hb : getPID env b = 0)
    (hcont : (updateOne env now s a).2 = true) :
    (updateMetrics env now [b, a] s).cpu a =
      (updateMetrics env now [a] s).cpu a ∧
    (updateMetrics env now [b, a] s).mem a =
      (updateMetrics env now [a] s).mem a ∧
    (updateMetrics env now [b, a] s).pid a =
      (updateMetrics env now [a] s).pid a ∧
    (updateMetrics env now [b, a] s).lastUpdate a =
      (updateMetrics env now [a] s).lastUpdate a ∧
    (updateMetrics env now [a, b] s).cpu b = some 0 ∧
    (updateMetrics env now [a, b] s).mem b = some 0 ∧
    (updateMetrics env now [a, b] s).pid b = some 0 := by
  have h1 : updateMetrics env now [b, a] s =
      (runNames env now
        ({ s with
            cpu := s.cpu.set b 0
            mem := s.mem.set b 0
            pid := s.pid.set b 0 }) [a]).1 := by
    unfold updateMetrics
    rw [runNames_cons_true (updateOne_notFound hb)]
  have hcong := updateOne_congr env now s
    ({ s with
        cpu := s.cpu.set b 0
        mem := s.mem.set b 0
        pid := s.pid.set b 0 }) a
    (StrMap.set_other _ _ _ _ hab) (StrMap.set_other _ _ _ _ hab)
    (StrMap.set_other _ _ _ _ hab) rfl
  refine ⟨?_, ?_, ?_, ?_, ?_, ?_, ?_⟩
  · rw [h1, runNames_singleton]
    show _ = (updateMetrics env now [a] s).cpu a
    rw [show updateMetrics env now [a] s = (updateOne env now s a).1 from
      runNames_singleton env now s a]
    exact hcong.1
  · rw [h1, runNames_singleton]
    rw [show updateMetrics env now [a] s = (updateOne env now s a).1 from
      runNames_singleton env now s a]
    exact hcong.2.1
  · rw [h1, runNames_singleton]
    rw [show updateMetrics env now [a] s = (updateOne env now s a).1 from
      runNames_singleton env now s a]
    exact hcong.2.2.1
  · rw [h1, runNames_singleton]
    rw [show updateMetrics env now [a] s = (updateOne env now s a).1 from
      runNames_singleton env now s a]
    exact hcong.2.2.2.1
  all_goals {
    rcases hc : updateOne env now s a with ⟨s2, c⟩
    rw [hc] at hcont
    cases c with
    | false => cases hcont
    | true =>
      have h2 : updateMetrics env now [a, b] s =
          (runNames env now s2 [b]).1 := by
        unfold updateMetrics
        rw [runNames_cons_true hc]
      rw [h2, runNames_singleton, updateOne_notFound hb]
      exact StrMap.set_same _ _ _
  }

/-- C2 witness: with `"a"` resolvable and sampling cleanly and `"b"`
absent, each of the two names ends correctly whichever position it holds. -/
theorem claim2_witness :
    (updateMetrics envOk 10 ["b", "a"] sPrev).cpu "a" =
      (updateMetrics envOk 10 ["a"] sPrev).cpu "a" ∧
    (updateMetrics envOk 10 ["b", "a"] sPrev).mem "a" =
      (updateMetrics envOk 10 ["a"] sPrev).mem "a" ∧
    (updateMetrics envOk 10 ["b", "a"] sPrev).pid "a" =
      (updateMetrics envOk 10 ["a"] sPrev).pid "a" ∧
    (updateMetrics envOk 10 ["b", "a"] sPrev).lastUpdate "a" =
      (updateMetrics envOk 10 ["a"] sPrev).lastUpdate "a" ∧
    (updateMetrics envOk 10 ["a", "b"] sPrev).cpu "b" = some 0 ∧
    (updateMetrics envOk 10 ["a", "b"] sPrev).mem "b" = some 0 ∧
    (updateMetrics envOk 10 ["a", "b"] sPrev).pid "b" = some 0 :=
  claim2_notfound_never_blocks envOk 10 sPrev "a" "b"
    (by decide) (by decide) (by decide)

/-- C3 counterexample: the memory read for `"a"` fails, so per the claim no
update should have been performed for `"a"` — yet its cpu gauge changed
from 1 to the freshly read 42 before the early return. -/
theorem claim3_counterexample :
    (envMemFail.sample (getPID envMemFail "a")).isFailure = true ∧
    sPrev.cpu "a" = some 1 ∧
    (updateMetrics envMemFail 10 ["a", "c"] sPrev).cpu "a" = some 42 ∧
    (updateMetrics envMemFail 10 ["a", "c"] sPrev).cpu "a" ≠ sPrev.cpu "a" := by
  decide

/-- C3 (amended): a sample-read failure abandons the pass: the tick ends
exactly as if the name list had been truncated right after the failing
name, so no name after it is touched; the failing name's mem, pid and
timestamp are untouched, and its cpu gauge is untouched too unless the
failure is at the memory read, where it holds the freshly read value. -/
theorem claim3_failure_aborts_pass (env : Env) (now : Nat) (s : MetricStore)
    (pre post : List String) (n : String)
    (hpre : (runNames env now s pre).2 = true)
    (hpid : getPID env n ≠ 0)
    (hdue : dueAt (runNames env now s pre).1 n now = true)
    (hfail : (env.sample (getPID env n)).isFailure = true) :
    runNames env now s (pre ++ n :: post) = runNames env now s (pre ++ [n]) ∧
    (runNames env now s (pre ++ n :: post)).2 = false ∧
    (updateMetrics env now (pre ++ n :: post) s).mem n =
      ((runNames env now s pre).1).mem n ∧
    (updateMetrics env now (pre ++ n :: post) s).pid n =
      ((runNames env now s pre).1).pid n ∧
    (updateMetrics env now (pre ++ n :: post) s).lastUpdate n =
      ((runNames env now s pre).1).lastUpdate n ∧
    (updateMetrics env now (pre ++ n :: post) s).cpu n =
      (match env.sample (getPID env n) with
        | .memErr c => some c
        | _ => ((runNames env now s pre).1).cpu n) := by
  have hsplit1 := runNames_append_completes env now s pre (n :: post) hpre
  have hsplit2 := runNames_append_completes env now s pre [n] hpre
  cases hs : env.sample (getPID env n) with
  | newProcessErr =>
    have h1 := runNames_cons_false_at post
      (updateOne_newProcessErr hpid hdue hs)
    have h2 := runNames_cons_false_at []
      (updateOne_newProcessErr hpid hdue hs)
    refine ⟨by rw [hsplit1, hsplit2, h1, h2], ?_, ?_, ?_, ?_, ?_⟩ <;>
      · first
        | (rw [hsplit1, h1])
        | (unfold updateMetrics; rw [hsplit1, h1])
  | cpuErr =>
    have h1 := runNames_cons_false_at post
      (updateOne_cpuErr hpid hdue hs)
    have h2 := runNames_cons_false_at []
      (updateOne_cpuErr hpid hdue hs)
    refine ⟨by rw [hsplit1, hsplit2, h1, h2], ?_, ?_, ?_, ?_, ?_⟩ <;>
      · first
        | (rw [hsplit1, h1])
        | (unfold updateMetrics; rw [hsplit1, h1])
  | memErr c =>
    have h1 := runNames_cons_false_at post
      (updateOne_memErr hpid hdue hs)
    have h2 := runNames_cons_false_at []
      (updateOne_memErr hpid hdue hs)
    refine ⟨by rw [hsplit1, hsplit2, h1, h2], ?_, ?_, ?_, ?_, ?_⟩
    · rw [hsplit1, h1]
    · unfold updateMetrics; rw [hsplit1, h1]
    · unfold updateMetrics; rw [hsplit1, h1]
    · unfold updateMetrics; rw [hsplit1, h1]
    · unfold updateMetrics
      rw [hsplit1, h1]
      exact StrMap.set_same _ _ _
  | ok c m2 =>
    rw [hs] at hfail
    simp [SampleOutcome.isFailure] at hfail

/-- C3 witness: `"a"` is due and its CPU read fails with `"c"` still to
process; the pass is the truncated pass, aborted, and `"a"` is untouched. -/
theorem claim3_witness :
    runNames envCpuFail 10 sPrev ([] ++ "a" :: ["c"]) =
      runNames envCpuFail 10 sPrev ([] ++ ["a"]) ∧
    (runNames envCpuFail 10 sPrev ([] ++ "a" :: ["c"])).2 = false ∧
    (updateMetrics envCpuFail 10 ([] ++ "a" :: ["c"]) sPrev).mem "a" =
      ((runNames envCpuFail 10 sPrev []).1).mem "a" ∧
    (updateMetrics envCpuFail 10 ([] ++ "a" :: ["c"]) sPrev).pid "a" =
      ((runNames envCpuFail 10 sPrev []).1).pid "a" ∧
    (updateMetrics envCpuFail 10 ([] ++ "a" :: ["c"]) sPrev).lastUpdate "a" =
      ((runNames envCpuFail 10 sPrev []).1).lastUpdate "a" ∧
    (updateMetrics envCpuFail 10 ([] ++ "a" :: ["c"]) sPrev).cpu "a" =
      (match envCpuFail.sample (getPID envCpuFail "a") with
        | .memErr c => some c
        | _ => ((runNames envCpuFail 10 sPrev []).1).cpu "a") :=
  claim3_failure_aborts_pass envCpuFail 10 sPrev [] ["c"] "a"
    (by decide) (by decide) (by decide) (by decide)

/-- C6 counterexample: `"a"` resolves to pid 7 but the process has vanished
before sampling (`process.NewProcess` fails); the claim expects the
not-found zeroing policy, yet the gauges keep their previous values
(cpu stays 1, not 0). -/
theorem claim6_counterexample :
    getPID envVanish "a" = 7 ∧
    envVanish.sample 7 = .newProcessErr ∧
    (updateMetrics envVanish 10 ["a"] sPrev).cpu "a" = some 1 ∧
    (updateMetrics envVanish 10 ["a"] sPrev).cpu "a" ≠ some 0 := by
  decide

/-- C6 (amended): when the process vanishes between resolution and
sampling, the sampler reports an error — modelled as the `newProcessErr`
outcome, an ordinary error value, not a crash — and the pass keeps the
name's previous gauge values and timestamp (last-known-good policy) while
aborting the rest of the tick; the gauges are NOT zeroed. -/
theorem claim6_vanish_keeps_last_known (env : Env) (now : Nat)
    (s : MetricStore) (pre post : List String) (n : String)
    (hpre : (runNames env now s pre).2 = true)
    (hnpre : n ∉ pre)
    (hpid : getPID env n ≠ 0)
    (hdue : dueAt s n now = true)
    (hv : env.sample (getPID env n) = .newProcessErr) :
    (updateMetrics env now (pre ++ n :: post) s).cpu n = s.cpu n ∧
    (updateMetrics env now (pre ++ n :: post) s).mem n = s.mem n ∧
    (updateMetrics env now (pre ++ n :: post) s).pid n = s.pid n ∧
    (updateMetrics env now (pre ++ n :: post) s).lastUpdate n =
      s.lastUpdate n ∧
    (runNames env now s (pre ++ n :: post)).2 = false := by
  obtain ⟨f1, f2, f3, f4⟩ := runNames_frame env now s pre n hnpre
  have hdue1 : dueAt (runNames env now s pre).1 n now = true := by
    rw [dueAt_congr now f4]; exact hdue
  have hsplit := runNames_append_completes env now s pre (n :: post) hpre
  have habort := runNames_cons_false_at post
    (updateOne_newProcessErr hpid hdue1 hv)
  refine ⟨?_, ?_, ?_, ?_, ?_⟩
  · unfold updateMetrics; rw [hsplit, habort]; exact f1
  · unfold updateMetrics; rw [hsplit, habort]; exact f2
  · unfold updateMetrics; rw [hsplit, habort]; exact f3
  · unfold updateMetrics; rw [hsplit, habort]; exact f4
  · rw [hsplit, habort]

/-- C6 witness: the vanish scenario at concrete inputs — all four stored
values survive and the tick is aborted. -/
theorem claim6_witness :
    (updateMetrics envVanish 10 ([] ++ "a" :: []) sPrev).cpu "a" =
      sPrev.cpu "a" ∧
    (updateMetrics envVanish 10 ([] ++ "a" :: []) sPrev).mem "a" =
      sPrev.mem "a" ∧
    (updateMetrics envVanish 10 ([] ++ "a" :: []) sPrev).pid "a" =
      sPrev.pid "a" ∧
    (updateMetrics envVanish 10 ([] ++ "a" :: []) sPrev).lastUpdate "a" =
      sPrev.lastUpdate "a" ∧
    (runNames envVanish 10 sPrev ([] ++ "a" :: [])).2 = false :=
  claim6_vanish_keeps_last_known envVanish 10 sPrev [] [] "a"
    (by decide) (by decide) (by decide) (by decide) (by decide)
